import Mathlib

/-
Verification of the nyaa query/result synchronization engine against its
specification.  The Rust sources embedded here are:
  src/sync.rs                 (input reader task, fetch/result delivery)
  src/source/torrent_galaxy.rs (the TorrentGalaxy source adapter)
  src/widget/sort.rs          (the sort popup)
Strings scraped from HTML are modelled as Lean `String`s; wherever the Rust
code works on UTF-8 bytes (`str::len`, `str::get`) the byte-level semantics
is reproduced explicitly.
-/

namespace Nyaa

/-- Rust `str::len()`: the length of the string in UTF-8 bytes. -/
def utf8Len (s : String) : Nat := (s.data.map Char.utf8Size).sum

/-- Rust `str::split_once(c)` on the underlying character list: split at the
first occurrence of `c`, or `none` when `c` does not occur. -/
def splitOnceList (c : Char) : List Char → Option (List Char × List Char)
  | [] => none
  | a :: as =>
    if a = c then some ([], as)
    else match splitOnceList c as with
      | none => none
      | some (x, y) => some (a :: x, y)

/-- Rust `str::split_once(c)`. -/
def splitOnce (c : Char) (s : String) : Option (String × String) :=
  (splitOnceList c s.data).map fun p => (String.mk p.1, String.mk p.2)

/-- Rust `str::rsplit_once(c)`: split at the last occurrence of `c`. -/
def rsplitOnceList (c : Char) : List Char → Option (List Char × List Char)
  | [] => none
  | a :: as =>
    match rsplitOnceList c as with
    | some (x, y) => some (a :: x, y)
    | none => if a = c then some ([], as) else none

/-- Rust `str::rsplit_once(c)` at `String` level. -/
def rsplitOnce (c : Char) (s : String) : Option (String × String) :=
  (rsplitOnceList c s.data).map fun p => (String.mk p.1, String.mk p.2)

/-- Rust `str::get(0..2)`: the first two BYTES of the string provided byte
index 2 falls on a character boundary, `none` otherwise.  Spelled out over
the character list: a leading 1-byte character needs a second 1-byte
character, a leading 2-byte character is exactly the first two bytes, and a
leading 3- or 4-byte character makes byte index 2 fall inside it. -/
def rustGet02 : List Char → Option (List Char)
  | [] => none
  | [c] => if c.utf8Size = 2 then some [c] else none
  | c1 :: c2 :: _ =>
    if c1.utf8Size = 1 then
      if c2.utf8Size = 1 then some [c1, c2] else none
    else if c1.utf8Size = 2 then some [c1]
    else none

/-- ASCII lowercasing of one character.  Rust `str::to_lowercase()` is full
Unicode lowercasing; the match keys it feeds in the source (`"b"`, `"kb"`,
`"mb"`, `"gb"`) are ASCII, and on ASCII input the two coincide. -/
def asciiLowerChar (c : Char) : Char :=
  if 'A' ≤ c ∧ c ≤ 'Z' then Char.ofNat (c.toNat + 32) else c

/-- ASCII lowercasing of a string (see `asciiLowerChar`). -/
def asciiLower (s : String) : String := String.mk (s.data.map asciiLowerChar)

/-- The unit step-up table of `torrent_galaxy.rs` (`"b" => "kB"`, `"kb" =>
"MB"`, `"mb" => "GB"`, `"gb" => "TB"`, anything else `"??"`), applied to the
lowercased unit. -/
def nextUnit (lu : String) : String :=
  if lu = "b" then "kB"
  else if lu = "kb" then "MB"
  else if lu = "mb" then "GB"
  else if lu = "gb" then "TB"
  else "??"

/-- The comma-size rewrite of `TorrentGalaxyHtmlSource::search` (lines
241-255): `if let Some((x, y)) = size.split_once(',')` then `if let
Some((y, unit)) = y.split_once(' ')` then `y.get(0..2).unwrap_or("00")`,
step the unit up, and reassemble as `format!("{}.{} {}", x, y, unit)`;
in every other case the size string is returned unchanged. -/
def sizeNormalize (size : String) : String :=
  match splitOnce ',' size with
  | none => size
  | some (x, rest) =>
    match splitOnce ' ' rest with
    | none => size
    | some (y, unit) =>
      let y2 := ((rustGet02 y.data).map String.mk).getD "00"
      x ++ "." ++ y2 ++ " " ++ nextUnit (asciiLower unit)

/-- Value of a list of decimal digit characters. -/
def natOfDigits (l : List Char) : Nat := l.foldl (fun n c => 10 * n + (c.toNat - 48)) 0

/-- Rust `str::parse::<uN>()` for an unsigned integer type with `bound =
2 ^ N`: an optional leading `+`, then one or more ASCII digits, and the value
must fit the type; everything else (empty string, stray characters,
overflow) is a parse error. -/
def rustParseNat (bound : Nat) (s : String) : Option Nat :=
  let l := match s.data with
    | '+' :: rest => rest
    | l => l
  if l ≠ [] ∧ l.all Char.isDigit then
    let v := natOfDigits l
    if v < bound then some v else none
  else none

/-- Modelled from the spec: `util::html::inner` is not under `src/`.  Per its
call sites in `torrent_galaxy.rs` and the spec ("missing seeder count → 0,
missing size → a zero-byte placeholder string"), it yields the selected
element's inner text, or the supplied default when the selector matches
nothing.  The element-lookup outcome is modelled as an `Option String`
input. -/
def inner (v : Option String) (dflt : String) : String := v.getD dflt

/-- Modelled from the spec: `util::html::attr` is not under `src/`.  It
yields the named attribute of the selected element; the fallback for a
missing element is modelled as the empty string (every use of it either
feeds a field the spec leaves unconstrained or flows through a parse step
with its own `unwrap_or_default`). -/
def attr (v : Option String) : String := v.getD ""

/-- One scraped `div.tgxtablerow` element, reduced to the per-field selector
results that `TorrentGalaxyHtmlSource::search` reads off it.  A `none` field
means the corresponding selector matched nothing.  The torrent/magnet/post
link fields are omitted: their values pass through the external `url::Url`
resolver and no claim mentions them. -/
structure RawItem where
  catHref : Option String := none
  titleAttrTitle : Option String := none
  dateText : Option String := none
  seedText : Option String := none
  leechText : Option String := none
  viewsText : Option String := none
  sizeText : Option String := none
  trustClasses : Option (List String) := none
  uploaderText : Option String := none
  uploaderStatusTitle : Option String := none
  langTitle : Option String := none
deriving DecidableEq

/-- `source::ItemType` (`None` / `Remake` / `Trusted`). -/
inductive ItemType where
  | None
  | Remake
  | Trusted
deriving DecidableEq

/-- The canonical `Item` record, restricted to the fields the specification
constrains.  The `extra` string map is flattened into the three keys the
adapter inserts (`uploader`, `uploader_status`, `lang`); `bytes`, the icon
and the link fields are omitted (they are produced by `util::conv` and the
category table, which no claim mentions). -/
structure Item where
  id : Nat
  date : String
  seeders : Nat
  leechers : Nat
  downloads : Nat
  size : String
  title : String
  category : Nat
  itemType : ItemType
  uploader : String
  uploaderStatus : String
  lang : String
deriving DecidableEq

/-- The count-field pipeline of `search` (used for seeders, leechers and
views): `inner(e, sel, "0").chars().filter(char::is_ascii_digit)
.collect::<String>().parse::<u32>().unwrap_or_default()`. -/
def parseCount (field : Option String) : Nat :=
  (rustParseNat (2 ^ 32) (String.mk ((inner field "0").data.filter Char.isDigit))).getD 0

/-- One `Item` built from one scraped row, following the closure body of
`search` (lines 209-305). -/
def parseItem (i : Nat) (e : RawItem) : Item :=
  let catId := (((rsplitOnce '=' (attr e.catHref)).map fun v => v.2).bind
    fun v => rustParseNat (2 ^ 64) v).getD 0
  { id := i
    date := e.dateText.getD ""
    seeders := parseCount e.seedText
    leechers := parseCount e.leechText
    downloads := parseCount e.viewsText
    size := sizeNormalize (inner e.sizeText "0 MB")
    title := attr e.titleAttrTitle
    category := catId
    itemType :=
      if (e.trustClasses.map fun cs => cs.contains "fa-check").getD false then ItemType.None
      else ItemType.Remake
    uploader := inner e.uploaderText "???"
    uploaderStatus := attr e.uploaderStatusTitle
    lang := attr e.langTitle }

/-- The pagination block of `search` (lines 308-323): start from the
placeholder `last_page = 50`, `total_results = 2500`; when the
`div#filterbox2 > span.badge` element is present and its digit-filtered
inner html parses as `usize`, overwrite with `((n + 49) / 50, n)` — but
only when `n ≠ 0` or the item list is empty.  The `num_results + 49`
addition is `usize` arithmetic: it wraps at `2 ^ 64` (release builds;
debug builds panic there), hence the `% 2 ^ 64` on the sum before the
division. -/
def tgxPagination (pagInner : Option String) (items : List Item) : Nat × Nat :=
  match pagInner with
  | none => (50, 2500)
  | some s =>
    match rustParseNat (2 ^ 64) (String.mk (s.data.filter Char.isDigit)) with
    | none => (50, 2500)
    | some n =>
      if n ≠ 0 ∨ items.isEmpty then ((n + 49) % 2 ^ 64 / 50, n) else (50, 2500)

/-- `ratatui::layout::Constraint`, restricted to the two constructors the
adapter uses. -/
inductive RConstraint where
  | Length (n : Nat)
  | Min (n : Nat)
deriving DecidableEq

/-- `results::ResultColumn`: label-only columns carry a layout constraint,
sortable columns carry a width and the bound sort-key id. -/
inductive ResultColumn where
  | Normal (label : String) (c : RConstraint)
  | Sorted (label : String) (width : Nat) (sortId : Nat)
deriving DecidableEq

/-- `TgxSort` from the `popup_enum!` block: discriminants 0 Date, 1 Seeders,
2 Leechers, 3 Size, 4 Name. -/
inductive TgxSort where
  | Date
  | Seeders
  | Leechers
  | Size
  | Name
deriving DecidableEq

/-- `TgxSort as u32`. -/
def TgxSort.toNat : TgxSort → Nat
  | .Date => 0
  | .Seeders => 1
  | .Leechers => 2
  | .Size => 3
  | .Name => 4

/-- `TgxSort::try_from(usize)` generated by `popup_enum!`. -/
def TgxSort.tryFrom (n : Nat) : Option TgxSort :=
  if n = 0 then some .Date
  else if n = 1 then some .Seeders
  else if n = 2 then some .Leechers
  else if n = 3 then some .Size
  else if n = 4 then some .Name
  else none

/-- `raw_date_width` (line 325): the maximum byte length of the date strings
(0 for an empty list), cast `as u16` — which truncates modulo `2 ^ 16`. -/
def rawDateWidth (items : List Item) : Nat :=
  ((items.map fun i => utf8Len i.date).max?.getD 0) % 2 ^ 16

/-- `date_width = max(raw_date_width, 6)` (line 326). -/
def dateWidth (items : List Item) : Nat := max (rawDateWidth items) 6

/-- `raw_uploader_width` (lines 328-332): maximum byte length of the
`uploader` extra field, cast `as u16`.  (In the flattened `Item` the
`uploader` key is always present, as it is inserted unconditionally by
`parseItem`; the HashMap lookup's `unwrap_or(0)` therefore never fires.) -/
def rawUploaderWidth (items : List Item) : Nat :=
  ((items.map fun i => utf8Len i.uploader).max?.getD 0) % 2 ^ 16

/-- `uploader_width = max(raw_uploader_width, 8)` (line 333). -/
def uploaderWidth (items : List Item) : Nat := max (rawUploaderWidth items) 8

/-- The header column list of `search` (lines 335-345). -/
def tgxHeader (items : List Item) : List ResultColumn :=
  [ .Normal "Cat" (.Length 3),
    .Normal "" (.Length 2),
    .Normal "Name" (.Min 3),
    .Normal "Uploader" (.Length (uploaderWidth items)),
    .Sorted "Size" 9 TgxSort.Size.toNat,
    .Sorted "Date" (dateWidth items) TgxSort.Date.toNat,
    .Sorted "" 4 TgxSort.Seeders.toNat,
    .Sorted "" 4 TgxSort.Leechers.toNat,
    .Normal "  󰈈" (.Length 5) ]

/-- A fetched document, reduced to what `search` reads out of it: the list
of `div.tgxtablerow` rows and, when present, the inner html of the first
`div#filterbox2 > span.badge` element. -/
structure TgxDoc where
  items : List RawItem
  pagInner : Option String
deriving DecidableEq

/-- What one successful `search` call produces: the parsed items, the
pagination pair written into the context, and the derived header columns.
(The per-row styled cells and the final `header.get_row` call depend only on
the theme and the current sort selection and are not mentioned by any
claim.) -/
structure SearchOut where
  items : List Item
  lastPage : Nat
  totalResults : Nat
  header : List ResultColumn
deriving DecidableEq

/-- The transport-failure error of `search` (lines 179-183):
`format!("{}\nInvalid repsponse code: {}", url, code)` (typo as in the
source). -/
def transportErr (url : String) (status : Nat) : String :=
  url ++ "\nInvalid repsponse code: " ++ Nat.repr status

/-- `TorrentGalaxyHtmlSource::search`, shallowly embedded.  The network
round-trip is modelled by its observable pieces: the final request `url`,
the response `status` code, and the parsed document `doc`.  The code errors
out unless the status is exactly `StatusCode::OK` (200); otherwise it parses
every row (each row parse is total — missing fields become defaults),
computes pagination, and derives the header. -/
def tgxSearch (url : String) (status : Nat) (doc : TgxDoc) : Except String SearchOut :=
  if status ≠ 200 then .error (transportErr url status)
  else
    let items := doc.items.enum.map fun p => parseItem p.1 p.2
    let pag := tgxPagination doc.pagInner items
    .ok { items := items, lastPage := pag.1, totalResults := pag.2, header := tgxHeader items }

/-- `Source::filter` for `TorrentGalaxyHtmlSource` (lines 116-122): a direct
delegation to `search`. -/
def tgxFilterOp (url : String) (status : Nat) (doc : TgxDoc) : Except String SearchOut :=
  tgxSearch url status doc

/-- `Source::categorize` for `TorrentGalaxyHtmlSource` (lines 123-129): a
direct delegation to `search`. -/
def tgxCategorizeOp (url : String) (status : Nat) (doc : TgxDoc) : Except String SearchOut :=
  tgxSearch url status doc

/-- `Source::sort` for `TorrentGalaxyHtmlSource` (lines 130-136): a direct
delegation to `search`. -/
def tgxSortOp (url : String) (status : Nat) (doc : TgxDoc) : Except String SearchOut :=
  tgxSearch url status doc

/-- `TgxFilter` from the `popup_enum!` block: discriminants 0 NoFilter,
1 OnlineStreams, 2 ExcludeXXX, 3 NoWildcard. -/
inductive TgxFilter where
  | NoFilter
  | OnlineStreams
  | ExcludeXXX
  | NoWildcard
deriving DecidableEq

/-- `TgxFilter::try_from(usize)` generated by `popup_enum!`. -/
def TgxFilter.tryFrom (n : Nat) : Option TgxFilter :=
  if n = 0 then some .NoFilter
  else if n = 1 then some .OnlineStreams
  else if n = 2 then some .ExcludeXXX
  else if n = 3 then some .NoWildcard
  else none

/-- The byte classes `urlencoding::encode` leaves unescaped:
`0-9 A-Z a-z - . _ ~`. -/
def unreservedByte (b : Nat) : Bool :=
  (48 ≤ b && b ≤ 57) || (65 ≤ b && b ≤ 90) || (97 ≤ b && b ≤ 122) ||
    b = 45 || b = 46 || b = 95 || b = 126

/-- Standard UTF-8 encoding of one character, as a list of byte values. -/
def utf8EncodeCharNat (c : Char) : List Nat :=
  let n := c.toNat
  if n < 128 then [n]
  else if n < 2048 then [192 + n / 64, 128 + n % 64]
  else if n < 65536 then [224 + n / 4096, 128 + (n / 64) % 64, 128 + n % 64]
  else [240 + n / 262144, 128 + (n / 4096) % 64, 128 + (n / 64) % 64, 128 + n % 64]

/-- The UTF-8 bytes of a string. -/
def utf8BytesOf (s : String) : List Nat := s.data.flatMap utf8EncodeCharNat

/-- An uppercase hexadecimal digit. -/
def hexDigit (n : Nat) : Char := if n < 10 then Char.ofNat (48 + n) else Char.ofNat (55 + n)

/-- Percent-encoding of one byte per `urlencoding::encode`. -/
def pctEncodeByte (b : Nat) : List Char :=
  if unreservedByte b then [Char.ofNat b] else ['%', hexDigit (b / 16), hexDigit (b % 16)]

/-- `urlencoding::encode`: byte-wise percent-encoding of the UTF-8 form. -/
def urlEncode (s : String) : String := String.mk ((utf8BytesOf s).flatMap pctEncodeByte)

/-- The sort query fragment of `search` (lines 146-153), keyed by the sort
popup index `w.sort.selected.sort`. -/
def sortParam (n : Nat) : String :=
  match TgxSort.tryFrom n with
  | some .Date => "&sort=id"
  | some .Seeders => "&sort=seeders"
  | some .Leechers => "&sort=leechers"
  | some .Size => "&sort=size"
  | some .Name => "&sort=name"
  | none => ""

/-- Modelled from the spec: the sort direction type (`SelectedSort::dir`)
and its `to_url` rendering are not under `src/`; the spec fixes the
direction domain to `{ascending, descending}`. -/
inductive SortDir where
  | Asc
  | Desc
deriving DecidableEq

/-- Modelled from the spec: the URL form of a sort direction. -/
def SortDir.toUrl : SortDir → String
  | .Asc => "asc"
  | .Desc => "desc"

/-- The order query fragment of `search` (line 154). -/
def ordParam (d : SortDir) : String := "&order=" ++ d.toUrl

/-- The filter query fragment of `search` (lines 155-160). -/
def filterParam (n : Nat) : String :=
  match TgxFilter.tryFrom n with
  | some .OnlineStreams => "&filterstream=1"
  | some .ExcludeXXX => "&nox=2&nox=1"
  | some .NoWildcard => "&nowildcard=1"
  | _ => ""

/-- The category query fragment of `search` (lines 161-164). -/
def catParam (n : Nat) : String :=
  match n with
  | 0 => ""
  | x => "&c" ++ Nat.repr x ++ "=1"

/-- The query string assembled by `search` (lines 166-174):
`format!("search={}&page={}{}{}{}{}", query, ctx.page - 1, filter, cat,
sort, ord)` with `query = encode(&w.search.input.input)`.  `ctx.page` is a
`usize`; for a positive page the subtraction agrees with `Nat`
subtraction. -/
def buildQuery (text : String) (page : Nat) (fIdx cIdx sIdx : Nat) (d : SortDir) : String :=
  "search=" ++ urlEncode text ++ "&page=" ++ Nat.repr (page - 1) ++
    filterParam fIdx ++ catParam cIdx ++ sortParam sIdx ++ ordParam d

/-- `sync::SearchQuery`: the immutable query snapshot handed to each fetch.
`SelectedSort` (not under `src/`) is flattened into its index and
direction. -/
structure SearchQuery where
  query : String
  page : Nat
  category : Nat
  filter : Nat
  sortIdx : Nat
  sortDir : SortDir
  user : Option String
deriving DecidableEq

instance : DecidableEq (Except String SearchOut) := fun a b =>
  match a, b with
  | .ok x, .ok y => if h : x = y then isTrue (by rw [h]) else isFalse (by simp [h])
  | .error x, .error y => if h : x = y then isTrue (by rw [h]) else isFalse (by simp [h])
  | .ok _, .error _ => isFalse (by simp)
  | .error _, .ok _ => isFalse (by simp)

/-- The message `AppSync::load_results` sends on the result channel.
Modelled from the spec: the `Results` type lives in `results.rs`, which is
not under `src/`; per the call `Results::new(search.clone(), res, ...)` in
`sync.rs` it carries the query snapshot it answers, and per spec §2/§4.4
the coordinator tags each outcome with the generation of that query. -/
structure ResultsMsg where
  gen : Nat
  search : SearchQuery
  out : Except String SearchOut
deriving DecidableEq

/-- `AppSync::load_results` (sync.rs lines 44-65), as the message it puts on
the result channel: the fetch outcome for query `search`, tagged with that
query's generation `gen`. -/
def loadResults (gen : Nat) (search : SearchQuery) (res : Except String SearchOut) :
    ResultsMsg :=
  { gen := gen, search := search, out := res }

/-- Modelled from the spec (§4.4, §4.5, §5): the Main Loop / Request
Coordinator state, which is not under `src/`.  `currentGen` is the
generation of the latest dispatched query; `displayed` is the last accepted
result table; `lastErr` the error recorded for the current generation, if
any. -/
structure EngineState where
  currentGen : Nat
  displayed : Option SearchOut
  lastErr : Option String
deriving DecidableEq

/-- Modelled from the spec (§2): the two message kinds the Main Loop
multiplexes — a state-changing input event (which dispatches a new fetch and
bumps the generation) and a fetch outcome tagged with its generation. -/
inductive EngineMsg where
  | dispatch
  | deliver (gen : Nat) (out : Except String SearchOut)
deriving DecidableEq

/-- Modelled from the spec (§4.5): one Main Loop transition.  A dispatch
increments the current generation; a delivered outcome is applied only when
its generation equals the current one (success replaces the displayed
table, failure records the error and keeps the last good table), and is
discarded with no state change otherwise. -/
def engineStep (s : EngineState) : EngineMsg → EngineState
  | .dispatch => { s with currentGen := s.currentGen + 1 }
  | .deliver g out =>
    if g = s.currentGen then
      match out with
      | .ok t => { s with displayed := some t, lastErr := none }
      | .error e => { s with lastErr := some e }
    else s

/-- Modelled from the spec: the Main Loop applied to a finite message
trace. -/
def engineRun (s : EngineState) (msgs : List EngineMsg) : EngineState :=
  msgs.foldl engineStep s

/-- Terminal input events are opaque to the reader task; modelled as an
arbitrary countable payload. -/
abbrev TermEvent := Nat

/-- The outcome of one `crossterm::event::read()` call. -/
inductive ReadOutcome where
  | ok (e : TermEvent)
  | err
deriving DecidableEq

/-- What one iteration of `AppSync::read_event_loop` does next: continue
looping (having forwarded an event or not), or halt. -/
inductive LoopOutcome where
  | cont (sent : Option TermEvent)
  | halt
deriving DecidableEq

/-- The body of `AppSync::read_event_loop` (sync.rs lines 67-73):
`loop { if let Ok(evt) = event::read() { let _ = tx_evt.send(evt).await; } }`.
A successful read forwards the event (the send result `sendOk` is bound to
`_` and discarded); a read error forwards nothing; in both cases the loop
continues. -/
def readEventLoopBody (r : ReadOutcome) (sendOk : Bool) : LoopOutcome :=
  match r, sendOk with
  | .ok e, _ => .cont (some e)
  | .err, _ => .cont none

/-- The events forwarded over a finite prefix of read outcomes. -/
def sentEvents (reads : List ReadOutcome) : List TermEvent :=
  reads.filterMap fun r =>
    match readEventLoopBody r true with
    | .cont o => o
    | .halt => none

/-- `widget::sort::Sort` (renamed: `Sort` is a Lean keyword).  The fixed
order is that of the static `SORTS` slice backing `Sort::iter`. -/
inductive SortKey where
  | Date
  | Downloads
  | Seeders
  | Leechers
  | Name
  | Category
deriving DecidableEq

/-- The static `SORTS` slice behind `Sort::iter` (sort.rs lines 22-34). -/
def sortIterList : List SortKey :=
  [.Date, .Downloads, .Seeders, .Leechers, .Name, .Category]

/-- Modelled from the spec: `app::Mode` is not under `src/`; only the mode
the popup handler writes (`Mode::Normal`) and the popup's own mode are
relevant to the embedded code. -/
inductive Mode where
  | Normal
  | Sorting
deriving DecidableEq

/-- `widget::StatefulTable<String>`, reduced to its item list and the
`ratatui` selection state `state.selected() : Option<usize>`. -/
structure StatefulTable where
  items : List String
  state : Option Nat
deriving DecidableEq

/-- `widget::sort::SortPopup`: the popup's table plus the chosen sort. -/
structure SortPopup where
  table : StatefulTable
  selected : SortKey
deriving DecidableEq

/-- A terminal event as the popup handler pattern-matches it: a key event
with its code and whether its kind is `Press`, or any other event. -/
inductive KeyCode where
  | Esc
  | Enter
  | Char (c : Char)
  | OtherKey
deriving DecidableEq

/-- A crossterm event, reduced to the pattern
`Event::Key(KeyEvent { code, kind, .. })` the handler matches on. -/
inductive TermEvt where
  | key (code : KeyCode) (press : Bool)
  | other
deriving DecidableEq

/-- `SortPopup::handle_event` (sort.rs lines 78-112).  The two table-motion
helpers live in `widget/mod.rs`, outside `src/`, and do not bear on any
claim; they are taken as parameters: `nextWrap` stands for
`StatefulTable::next_wrap` and `selIdx` for `StatefulTable::select`.
Returns the updated popup and application mode. -/
def sortHandleEvent
    (nextWrap : StatefulTable → Int → StatefulTable)
    (selIdx : StatefulTable → Nat → StatefulTable)
    (p : SortPopup) (m : Mode) (e : TermEvt) : SortPopup × Mode :=
  match e with
  | .key code true =>
    match code with
    | .Esc => (p, .Normal)
    | .Char c =>
      if c = 's' ∨ c = 'q' then (p, .Normal)
      else if c = 'j' then ({ p with table := nextWrap p.table 1 }, m)
      else if c = 'k' then ({ p with table := nextWrap p.table (-1) }, m)
      else if c = 'G' then ({ p with table := selIdx p.table (p.table.items.length - 1) }, m)
      else if c = 'g' then ({ p with table := selIdx p.table 0 }, m)
      else (p, m)
    | .Enter =>
      match sortIterList.get? (p.table.state.getD 0) with
      | some i => ({ p with selected := i }, .Normal)
      | none => (p, m)
    | .OtherKey => (p, m)
  | _ => (p, m)

/-- A date string of 65536 ASCII bytes, exhibiting the `as u16` width
truncation. -/
def longDate : String := String.mk (List.replicate 65536 'a')

/-- An `Item` with the given date and defaults everywhere else (the values
`parseItem` produces for a row whose selectors all missed). -/
def mkDateItem (d : String) : Item :=
  { id := 0, date := d, seeders := 0, leechers := 0, downloads := 0, size := "0 MB",
    title := "", category := 0, itemType := .Remake, uploader := "???",
    uploaderStatus := "", lang := "" }

/- ------------------------------------------------------------------ -/
/- Helper lemmas                                                       -/
/- ------------------------------------------------------------------ -/

theorem splitOnceList_not_mem (c : Char) (l : List Char) (h : c ∉ l) :
    splitOnceList c l = none := by
  induction l with
  | nil => rfl
  | cons a as ih =>
    have hne : ¬a = c := fun he => h (he ▸ List.mem_cons_self a as)
    have has : c ∉ as := fun hm => h (List.mem_cons_of_mem a hm)
    simp [splitOnceList, hne, ih has]

theorem splitOnceList_first (c : Char) (x y : List Char) (hx : c ∉ x) :
    splitOnceList c (x ++ c :: y) = some (x, y) := by
  induction x with
  | nil => simp [splitOnceList]
  | cons a as ih =>
    have hne : ¬a = c := fun he => hx (he ▸ List.mem_cons_self a as)
    have has : c ∉ as := fun hm => hx (List.mem_cons_of_mem a hm)
    simp [splitOnceList, hne, ih has]

theorem utf8Size_of_isDigit (c : Char) (h : c.isDigit = true) : c.utf8Size = 1 := by
  simp [Char.isDigit] at h
  unfold Char.utf8Size
  rw [if_pos]
  have h2 : c.val.toNat ≤ 57 := UInt32.le_def.mp h.2
  show c.val ≤ _
  rw [UInt32.le_def]
  exact Nat.le_trans h2 (by decide)

theorem foldl_max_eq_max_foldr (a : Nat) (l : List Nat) :
    List.foldl max a l = max a (l.foldr max 0) := by
  induction l generalizing a with
  | nil => simp
  | cons b bs ih => simp [List.foldl_cons, ih (max a b), Nat.max_assoc]

theorem max?_getD_eq_foldr (l : List Nat) : l.max?.getD 0 = l.foldr max 0 := by
  cases l with
  | nil => rfl
  | cons a as =>
    show List.foldl max a as = _
    rw [foldl_max_eq_max_foldr]
    rfl

theorem le_foldr_max (l : List Nat) (x : Nat) (hx : x ∈ l) : x ≤ l.foldr max 0 := by
  induction l with
  | nil => cases hx
  | cons a as ih =>
    rcases List.mem_cons.mp hx with rfl | hm
    · exact Nat.le_max_left _ _
    · exact Nat.le_trans (ih hm) (Nat.le_max_right _ _)

theorem foldr_max_cases (l : List Nat) : l.foldr max 0 = 0 ∨ l.foldr max 0 ∈ l := by
  induction l with
  | nil => exact Or.inl rfl
  | cons a as ih =>
    show max a (as.foldr max 0) = 0 ∨ max a (as.foldr max 0) ∈ a :: as
    rcases Nat.le_total (as.foldr max 0) a with h | h
    · rw [Nat.max_eq_left h]
      exact Or.inr (List.mem_cons_self a as)
    · rw [Nat.max_eq_right h]
      rcases ih with h0 | hmem
      · rw [h0]
        exact Or.inl rfl
      · exact Or.inr (List.mem_cons_of_mem a hmem)

theorem width_floor_spec (lens : List Nat) (lo : Nat)
    (hb : ∀ x ∈ lens, x < 2 ^ 16) :
    lo ≤ max ((lens.max?.getD 0) % 2 ^ 16) lo ∧
    (∀ x ∈ lens, x ≤ max ((lens.max?.getD 0) % 2 ^ 16) lo) ∧
    (max ((lens.max?.getD 0) % 2 ^ 16) lo = lo ∨
      ∃ x ∈ lens, max ((lens.max?.getD 0) % 2 ^ 16) lo = x) := by
  rw [max?_getD_eq_foldr]
  have hM : lens.foldr max 0 < 2 ^ 16 := by
    rcases foldr_max_cases lens with h0 | hmem
    · rw [h0]; decide
    · exact hb _ hmem
  rw [Nat.mod_eq_of_lt hM]
  refine ⟨Nat.le_max_right _ _, ?_, ?_⟩
  · intro x hx
    exact Nat.le_trans (le_foldr_max lens x hx) (Nat.le_max_left _ _)
  · rcases Nat.le_total (lens.foldr max 0) lo with h | h
    · exact Or.inl (Nat.max_eq_right h)
    · rw [Nat.max_eq_left h]
      rcases foldr_max_cases lens with h0 | hmem
      · rw [h0] at h ⊢
        exact Or.inl (Nat.le_antisymm h (Nat.zero_le _)).symm
      · exact Or.inr ⟨_, hmem, rfl⟩

theorem max?_getD_singleton (x : Nat) : ([x] : List Nat).max?.getD 0 = x := rfl

theorem mkDateItem_date (d : String) : (mkDateItem d).date = d := rfl

theorem rawDateWidth_singleton (it : Item) : rawDateWidth [it] = utf8Len it.date % 2 ^ 16 := by
  unfold rawDateWidth
  rw [List.map_singleton, max?_getD_singleton]

theorem utf8Len_replicate_a (n : Nat) : utf8Len (String.mk (List.replicate n 'a')) = n := by
  induction n with
  | zero => rfl
  | succ m ih =>
    show ((List.replicate (m + 1) 'a').map Char.utf8Size).sum = m + 1
    rw [List.replicate_succ, List.map_cons, List.sum_cons]
    rw [show ((List.replicate m 'a').map Char.utf8Size).sum = m from ih]
    rw [show ('a').utf8Size = 1 from by decide]
    omega

theorem engineStep_deliver_ne (s : EngineState) (g : Nat) (out : Except String SearchOut)
    (h : g ≠ s.currentGen) : engineStep s (.deliver g out) = s := by
  simp only [engineStep]
  rw [if_neg h]

theorem engineStep_mono (s : EngineState) (m : EngineMsg) :
    s.currentGen ≤ (engineStep s m).currentGen := by
  cases m with
  | dispatch => exact Nat.le_succ _
  | deliver g out =>
    simp only [engineStep]
    split
    · cases out <;> exact Nat.le_refl _
    · exact Nat.le_refl _

theorem engineRun_mono (s : EngineState) (msgs : List EngineMsg) :
    s.currentGen ≤ (engineRun s msgs).currentGen := by
  induction msgs generalizing s with
  | nil => exact Nat.le_refl _
  | cons m ms ih => exact Nat.le_trans (engineStep_mono s m) (ih (engineStep s m))

/- ------------------------------------------------------------------ -/
/- Claim theorems                                                      -/
/- ------------------------------------------------------------------ -/

/-- C1: every fetch outcome delivered on the result channel is tagged with
the generation of the query it answers; a delivered outcome whose
generation differs from the current one leaves the Main Loop state — in
particular the displayed table — unchanged; the current generation never
decreases; hence for g1 < g2 both dispatched, once g2's outcome has been
accepted (so the current generation is at least g2), a late outcome for g1
changes nothing. -/
theorem stale_generation_discarded :
    (∀ (g : Nat) (q : SearchQuery) (r : Except String SearchOut),
      (loadResults g q r).gen = g) ∧
    (∀ (s : EngineState) (msgs : List EngineMsg),
      s.currentGen ≤ (engineRun s msgs).currentGen) ∧
    (∀ (s : EngineState) (g : Nat) (out : Except String SearchOut),
      g ≠ s.currentGen → engineStep s (.deliver g out) = s) ∧
    (∀ (s0 : EngineState) (pre : List EngineMsg) (g1 : Nat) (out : Except String SearchOut),
      g1 < (engineRun s0 pre).currentGen →
      engineRun s0 (pre ++ [.deliver g1 out]) = engineRun s0 pre) := by
  refine ⟨fun _ _ _ => rfl, engineRun_mono, engineStep_deliver_ne, ?_⟩
  intro s0 pre g1 out h
  have hrw : engineRun s0 (pre ++ [.deliver g1 out]) =
      engineStep (engineRun s0 pre) (.deliver g1 out) := by
    simp [engineRun, List.foldl_append]
  rw [hrw]
  exact engineStep_deliver_ne _ _ _ (Nat.ne_of_lt h)

/-- C1 witness: generations 1 and 2 dispatched, generation 2's outcome
accepted; the late error outcome for generation 1 leaves the state — and so
the displayed table — untouched. -/
theorem stale_generation_discarded_witness :
    engineRun ⟨0, none, none⟩
        ([.dispatch, .dispatch, .deliver 2 (.ok ⟨[], 50, 2500, []⟩)] ++
          [.deliver 1 (.error "late")]) =
      engineRun ⟨0, none, none⟩
        [.dispatch, .dispatch, .deliver 2 (.ok ⟨[], 50, 2500, []⟩)] :=
  stale_generation_discarded.2.2.2 ⟨0, none, none⟩
    [.dispatch, .dispatch, .deliver 2 (.ok ⟨[], 50, 2500, []⟩)] 1 (.error "late")
    (by decide)

/-- C2: a size string without a comma is left unchanged; a size string of
the form `x,y unit` with `y` a digit string (at least two digits) and a
recognized unit (B/KB/MB/GB in any ASCII case) is rewritten to
`x.y2 nextUnit` where `y2` is the first two digits of `y` and `nextUnit` is
the next-larger unit — e.g. `"1,015 KB"` becomes `"1.01 MB"`. -/
theorem comma_size_normalized :
    (∀ s : String, ',' ∉ s.data → sizeNormalize s = s) ∧
    (∀ (x y u : String) (d1 d2 : Char) (ds : List Char),
      ',' ∉ x.data →
      y.data = d1 :: d2 :: ds →
      (∀ c ∈ y.data, c.isDigit = true) →
      nextUnit (asciiLower u) ≠ "??" →
      sizeNormalize (x ++ "," ++ y ++ " " ++ u) =
        x ++ "." ++ String.mk [d1, d2] ++ " " ++ nextUnit (asciiLower u)) := by
  constructor
  · intro s h
    simp [sizeNormalize, splitOnce, splitOnceList_not_mem ',' s.data h]
  · intro x y u d1 d2 ds hx hy hdig _
    have hday : (x ++ "," ++ y ++ " " ++ u).data =
        x.data ++ ',' :: (y.data ++ ' ' :: u.data) := by
      simp [String.data_append]
    have h1 : splitOnce ',' (x ++ "," ++ y ++ " " ++ u) =
        some (x, String.mk (y.data ++ ' ' :: u.data)) := by
      simp only [splitOnce, hday, splitOnceList_first ',' x.data _ hx]
      rfl
    have hsp : ' ' ∉ y.data := by
      intro hmem
      exact absurd (hdig ' ' hmem) (by decide)
    have h2 : splitOnce ' ' (String.mk (y.data ++ ' ' :: u.data)) = some (y, u) := by
      simp only [splitOnce]
      rw [splitOnceList_first ' ' y.data u.data hsp]
      rfl
    have e1 : d1.utf8Size = 1 := utf8Size_of_isDigit d1 (hdig d1 (by rw [hy]; exact List.mem_cons_self _ _))
    have e2 : d2.utf8Size = 1 :=
      utf8Size_of_isDigit d2 (hdig d2 (by rw [hy]; exact List.mem_cons_of_mem _ (List.mem_cons_self _ _)))
    have hg : rustGet02 y.data = some [d1, d2] := by
      rw [hy]
      simp [rustGet02, e1, e2]
    simp only [sizeNormalize, h1, h2, hg]
    rfl

/-- C2 witness: the documented example and an unchanged comma-free size. -/
theorem comma_size_normalized_witness :
    sizeNormalize "1,015 KB" = "1.01 MB" ∧ sizeNormalize "500 MB" = "500 MB" := by
  constructor
  · have h := comma_size_normalized.2 "1" "015" "KB" '0' '1' ['5']
      (by decide) rfl (by decide) (by decide)
    have e : ("1" : String) ++ "," ++ "015" ++ " " ++ "KB" = "1,015 KB" := by decide
    rw [e] at h
    rw [h]
    decide
  · exact comma_size_normalized.1 "500 MB" (by decide)

/-- C3 counterexample: with the page-count element absent and the item list
empty, the code still reports the (50, 2500) placeholder, not the (0, 0)
state the claim requires for an empty item list. -/
theorem missing_pagination_empty_counterexample :
    tgxPagination none [] = (50, 2500) ∧ tgxPagination none [] ≠ (0, 0) := by
  decide

/-- C3 (amended): when the page-count element is absent the search reports
the placeholder (50 pages, 2500 results) regardless of whether the item
list is empty; a parsed count n with n + 49 below the usize wrap bound
2 ^ 64 overrides the placeholder as ((n + 49) / 50, n) exactly when n ≠ 0
or the item list is empty — so the zero/zero state arises when the element
is present, parses to 0, and the item list is empty, while a parsed 0 with
a non-empty item list keeps the placeholder. -/
theorem missing_pagination_defaults :
    (∀ items : List Item, tgxPagination none items = (50, 2500)) ∧
    (∀ (s : String) (n : Nat) (items : List Item),
      rustParseNat (2 ^ 64) (String.mk (s.data.filter Char.isDigit)) = some n →
      n + 49 < 2 ^ 64 →
      (n ≠ 0 ∨ items = []) →
      tgxPagination (some s) items = ((n + 49) / 50, n)) ∧
    (∀ (s : String) (items : List Item),
      rustParseNat (2 ^ 64) (String.mk (s.data.filter Char.isDigit)) = some 0 →
      items ≠ [] →
      tgxPagination (some s) items = (50, 2500)) := by
  refine ⟨fun _ => rfl, ?_, ?_⟩
  · intro s n items hp hbound hcase
    simp only [tgxPagination, hp]
    rw [Nat.mod_eq_of_lt hbound]
    rcases hcase with h | h
    · rw [if_pos (Or.inl h)]
    · rw [if_pos (Or.inr (by rw [h]; rfl))]
  · intro s items hp hne
    simp only [tgxPagination, hp]
    rw [if_neg]
    rintro (h0 | hemp)
    · exact h0 rfl
    · exact hne (List.isEmpty_iff.mp hemp)

/-- C3 witness: present element parsing to 0 with empty items gives (0, 0);
with a non-empty item list it keeps the placeholder; a real count of 1234
gives 25 pages. -/
theorem missing_pagination_defaults_witness :
    tgxPagination (some "0") [] = (0, 0) ∧
    tgxPagination (some "0") [mkDateItem "x"] = (50, 2500) ∧
    tgxPagination (some "1,234") [] = (25, 1234) := by
  refine ⟨?_, ?_, ?_⟩
  · have h := missing_pagination_defaults.2.1 "0" 0 [] (by decide) (by decide) (Or.inr rfl)
    simpa using h
  · exact missing_pagination_defaults.2.2 "0" [mkDateItem "x"] (by decide) (by simp)
  · have h := missing_pagination_defaults.2.1 "1,234" 1234 [] (by decide) (by decide)
      (Or.inl (by decide))
    simpa using h

/-- C4: a missing seeder, leecher or view count parses to 0, an unparseable
(digit-free) seeder field parses to 0, a missing size yields the zero-byte
placeholder string "0 MB", and a fetch whose response status is OK succeeds
regardless of which per-item fields are missing. -/
theorem field_defaults_not_errors :
    (∀ (i : Nat) (e : RawItem),
      (e.seedText = none → (parseItem i e).seeders = 0) ∧
      (e.leechText = none → (parseItem i e).leechers = 0) ∧
      (e.viewsText = none → (parseItem i e).downloads = 0) ∧
      (∀ s, e.seedText = some s → s.data.filter Char.isDigit = [] →
        (parseItem i e).seeders = 0) ∧
      (e.sizeText = none → (parseItem i e).size = "0 MB")) ∧
    (∀ (url : String) (doc : TgxDoc), ∃ out, tgxSearch url 200 doc = .ok out) := by
  constructor
  · intro i e
    refine ⟨?_, ?_, ?_, ?_, ?_⟩
    · intro h
      rw [show (parseItem i e).seeders = parseCount e.seedText from rfl, h]
      decide
    · intro h
      rw [show (parseItem i e).leechers = parseCount e.leechText from rfl, h]
      decide
    · intro h
      rw [show (parseItem i e).downloads = parseCount e.viewsText from rfl, h]
      decide
    · intro s hs hf
      rw [show (parseItem i e).seeders = parseCount e.seedText from rfl, hs]
      show (rustParseNat (2 ^ 32) (String.mk (s.data.filter Char.isDigit))).getD 0 = 0
      rw [hf]
      decide
    · intro h
      rw [show (parseItem i e).size = sizeNormalize (inner e.sizeText "0 MB") from rfl, h]
      decide
  · intro url doc
    exact ⟨_, rfl⟩

/-- C4 witness: a row with every selector missing yields seeders 0 and size
"0 MB", and a 200-status fetch containing such a row succeeds. -/
theorem field_defaults_not_errors_witness :
    (parseItem 0 {}).seeders = 0 ∧ (parseItem 0 {}).size = "0 MB" ∧
    ∃ out, tgxSearch "http://x" 200 ⟨[{}], none⟩ = .ok out :=
  ⟨(field_defaults_not_errors.1 0 {}).1 rfl,
    (field_defaults_not_errors.1 0 {}).2.2.2.2 rfl,
    field_defaults_not_errors.2 "http://x" ⟨[{}], none⟩⟩

/-- C5: for any response whose status is not a success (2xx) status, the
search fails with the transport error carrying the requested URL and the
status code, and returns no result set. -/
theorem transport_error_on_failure :
    ∀ (url : String) (status : Nat) (doc : TgxDoc),
      ¬(200 ≤ status ∧ status ≤ 299) →
      tgxSearch url status doc = .error (transportErr url status) ∧
      ∀ out, tgxSearch url status doc ≠ .ok out := by
  intro url status doc h
  have hne : status ≠ 200 := by omega
  have he : tgxSearch url status doc = .error (transportErr url status) := by
    unfold tgxSearch
    rw [if_pos hne]
  refine ⟨he, fun out hc => ?_⟩
  rw [he] at hc
  exact Except.noConfusion hc

/-- C5 witness: a 404 response fails with the error string carrying the URL
and the code. -/
theorem transport_error_on_failure_witness :
    tgxSearch "http://u" 404 ⟨[], none⟩ = .error (transportErr "http://u" 404) ∧
    transportErr "http://u" 404 = "http://u\nInvalid repsponse code: 404" :=
  ⟨(transport_error_on_failure "http://u" 404 ⟨[], none⟩ (by decide)).1, by decide⟩

/-- C6: the adapter's filter, categorize and sort operations each return
exactly the result of its search operation on the same inputs — all four
operations share the one `search` implementation. -/
theorem four_ops_share_search :
    ∀ (url : String) (status : Nat) (doc : TgxDoc),
      tgxFilterOp url status doc = tgxSearch url status doc ∧
      tgxCategorizeOp url status doc = tgxSearch url status doc ∧
      tgxSortOp url status doc = tgxSearch url status doc :=
  fun _ _ _ => ⟨rfl, rfl, rfl⟩

/-- C7: for a positive page number p, the assembled query string carries the
zero-based page number z with z + 1 = p in its `&page=` parameter. -/
theorem page_param_zero_based :
    ∀ (text : String) (page fIdx cIdx sIdx : Nat) (d : SortDir),
      1 ≤ page →
      ∃ z, z + 1 = page ∧
        buildQuery text page fIdx cIdx sIdx d =
          "search=" ++ urlEncode text ++ "&page=" ++ Nat.repr z ++
            filterParam fIdx ++ catParam cIdx ++ sortParam sIdx ++ ordParam d := by
  intro text page fIdx cIdx sIdx d h
  exact ⟨page - 1, by omega, rfl⟩

/-- C7 witness: page 1 is sent as `page=0`. -/
theorem page_param_zero_based_witness :
    (∃ z, z + 1 = 1 ∧
      buildQuery "abc" 1 0 0 0 .Asc =
        "search=" ++ urlEncode "abc" ++ "&page=" ++ Nat.repr z ++
          filterParam 0 ++ catParam 0 ++ sortParam 0 ++ ordParam .Asc) ∧
    buildQuery "abc" 1 0 0 0 .Asc = "search=abc&page=0&sort=id&order=asc" :=
  ⟨page_param_zero_based "abc" 1 0 0 0 .Asc (by decide), by decide⟩

/-- C8: the read-event loop body never halts, its behaviour is independent
of whether the channel send succeeds, a successful read forwards exactly
the event read, a read error forwards nothing, and over any trace a dropped
read error leaves the forwarded event sequence as if the iteration had not
happened while a successful read appends its event. -/
theorem input_reader_perpetual :
    (∀ (r : ReadOutcome) (b : Bool), readEventLoopBody r b ≠ .halt) ∧
    (∀ (r : ReadOutcome) (b1 b2 : Bool), readEventLoopBody r b1 = readEventLoopBody r b2) ∧
    (∀ (e : TermEvent) (b : Bool), readEventLoopBody (.ok e) b = .cont (some e)) ∧
    (∀ b : Bool, readEventLoopBody .err b = .cont none) ∧
    (∀ (xs ys : List ReadOutcome), sentEvents (xs ++ .err :: ys) = sentEvents (xs ++ ys)) ∧
    (∀ (xs : List ReadOutcome) (e : TermEvent),
      sentEvents (xs ++ [.ok e]) = sentEvents xs ++ [e]) := by
  refine ⟨?_, ?_, fun _ _ => rfl, fun _ => rfl, ?_, ?_⟩
  · intro r b
    cases r <;> simp [readEventLoopBody]
  · intro r b1 b2
    cases r <;> rfl
  · intro xs ys
    simp [sentEvents, List.filterMap_append, List.filterMap_cons, readEventLoopBody]
  · intro xs e
    simp [sentEvents, List.filterMap_append, List.filterMap_cons, readEventLoopBody]

/-- C8 witness: a concrete trace — read error dropped, successes
forwarded in order, loop body never the halt outcome. -/
theorem input_reader_perpetual_witness :
    readEventLoopBody .err true ≠ .halt ∧
    sentEvents [.ok 7, .err, .ok 9] = [7, 9] :=
  ⟨input_reader_perpetual.1 .err true, by decide⟩

/-- C9 counterexample: column widths are cast `as u16`.  A result set whose
single item has a 65536-byte date string gets date column width 6 (the raw
maximum truncates to 0), not the maximum rendered length 65536 the claim
requires. -/
theorem column_width_truncation_counterexample :
    dateWidth [mkDateItem longDate] = 6 ∧
    max (utf8Len (mkDateItem longDate).date) 6 = 65536 ∧
    (6 : Nat) ≠ 65536 := by
  have hlen : utf8Len longDate = 65536 := utf8Len_replicate_a 65536
  refine ⟨?_, ?_, by decide⟩
  · unfold dateWidth
    rw [rawDateWidth_singleton, mkDateItem_date, hlen]
    decide
  · rw [mkDateItem_date, hlen]
    decide

/-- C9 (amended): provided every date/uploader field is shorter than 2^16
bytes (the widths are stored as `u16`, truncating longer values), the date
column width is the maximum byte length of the date field over all rows
floored at 6, the uploader column width is the maximum uploader length
floored at 8, and every other header column is independent of the result
set. -/
theorem column_widths_derived :
    ∀ items : List Item,
      ((∀ i ∈ items, utf8Len i.date < 2 ^ 16) →
        6 ≤ dateWidth items ∧
        (∀ i ∈ items, utf8Len i.date ≤ dateWidth items) ∧
        (dateWidth items = 6 ∨ ∃ i ∈ items, dateWidth items = utf8Len i.date)) ∧
      ((∀ i ∈ items, utf8Len i.uploader < 2 ^ 16) →
        8 ≤ uploaderWidth items ∧
        (∀ i ∈ items, utf8Len i.uploader ≤ uploaderWidth items) ∧
        (uploaderWidth items = 8 ∨ ∃ i ∈ items, uploaderWidth items = utf8Len i.uploader)) ∧
      ((tgxHeader items).get? 3 = some (.Normal "Uploader" (.Length (uploaderWidth items))) ∧
        (tgxHeader items).get? 5 = some (.Sorted "Date" (dateWidth items) TgxSort.Date.toNat) ∧
        ∀ j, j ≠ 3 → j ≠ 5 → (tgxHeader items).get? j = (tgxHeader []).get? j) := by
  intro items
  refine ⟨?_, ?_, rfl, rfl, ?_⟩
  · intro hb
    have hb2 : ∀ x ∈ items.map (fun i => utf8Len i.date), x < 2 ^ 16 := by
      intro x hx
      rcases List.mem_map.mp hx with ⟨i, hi, rfl⟩
      exact hb i hi
    obtain ⟨hlo, hle, hcase⟩ := width_floor_spec (items.map fun i => utf8Len i.date) 6 hb2
    refine ⟨hlo, ?_, ?_⟩
    · intro i hi
      exact hle _ (List.mem_map_of_mem _ hi)
    · rcases hcase with h | ⟨x, hx, he⟩
      · exact Or.inl h
      · rcases List.mem_map.mp hx with ⟨i, hi, rfl⟩
        exact Or.inr ⟨i, hi, he⟩
  · intro hb
    have hb2 : ∀ x ∈ items.map (fun i => utf8Len i.uploader), x < 2 ^ 16 := by
      intro x hx
      rcases List.mem_map.mp hx with ⟨i, hi, rfl⟩
      exact hb i hi
    obtain ⟨hlo, hle, hcase⟩ := width_floor_spec (items.map fun i => utf8Len i.uploader) 8 hb2
    refine ⟨hlo, ?_, ?_⟩
    · intro i hi
      exact hle _ (List.mem_map_of_mem _ hi)
    · rcases hcase with h | ⟨x, hx, he⟩
      · exact Or.inl h
      · rcases List.mem_map.mp hx with ⟨i, hi, rfl⟩
        exact Or.inr ⟨i, hi, he⟩
  · intro j h3 h5
    exact match j, h3, h5 with
      | 0, _, _ => rfl
      | 1, _, _ => rfl
      | 2, _, _ => rfl
      | 3, h3, _ => absurd rfl h3
      | 4, _, _ => rfl
      | 5, _, h5 => absurd rfl h5
      | 6, _, _ => rfl
      | 7, _, _ => rfl
      | 8, _, _ => rfl
      | _ + 9, _, _ => rfl

/-- C9 witness: a one-row result set with a 10-byte date — width bounds and
the attained-or-floor disjunction, via the amended theorem. -/
theorem column_widths_derived_witness :
    6 ≤ dateWidth [mkDateItem "2024-01-02"] ∧
    (∀ i ∈ [mkDateItem "2024-01-02"], utf8Len i.date ≤ dateWidth [mkDateItem "2024-01-02"]) ∧
    (dateWidth [mkDateItem "2024-01-02"] = 6 ∨
      ∃ i ∈ [mkDateItem "2024-01-02"], dateWidth [mkDateItem "2024-01-02"] = utf8Len i.date) :=
  (column_widths_derived [mkDateItem "2024-01-02"]).1 (by decide)

/-- C10: pressing Enter in the sort popup never fails — with no row selected
it behaves as if row 0 were selected (the selected sort becomes Date and the
mode returns to Normal), and with row i selected (i a valid index) the
selected sort becomes the i-th entry of the fixed order Date, Downloads,
Seeders, Leechers, Name, Category, returning to Normal mode. -/
theorem sort_popup_enter :
    ∀ (nextWrap : StatefulTable → Int → StatefulTable)
      (selIdx : StatefulTable → Nat → StatefulTable)
      (p : SortPopup) (m : Mode),
      (p.table.state = none →
        sortHandleEvent nextWrap selIdx p m (.key .Enter true) =
          ({ p with selected := .Date }, .Normal)) ∧
      (∀ i k, p.table.state = some i → sortIterList[i]? = some k →
        sortHandleEvent nextWrap selIdx p m (.key .Enter true) =
          ({ p with selected := k }, .Normal)) := by
  intro nextWrap selIdx p m
  constructor
  · intro h
    simp [sortHandleEvent, h, sortIterList]
  · intro i k hs hk
    simp [sortHandleEvent, hs, hk]

/-- C10 witness: Enter with no selection chooses Date; Enter with row 4
selected chooses Name; both return to Normal mode. -/
theorem sort_popup_enter_witness :
    sortHandleEvent (fun t _ => t) (fun t _ => t)
        ⟨⟨["Date", "Downloads", "Seeders", "Leechers", "Name", "Category"], none⟩, .Category⟩
        .Sorting (.key .Enter true) =
      (⟨⟨["Date", "Downloads", "Seeders", "Leechers", "Name", "Category"], none⟩, .Date⟩,
        .Normal) ∧
    sortHandleEvent (fun t _ => t) (fun t _ => t)
        ⟨⟨["Date", "Downloads", "Seeders", "Leechers", "Name", "Category"], some 4⟩, .Date⟩
        .Sorting (.key .Enter true) =
      (⟨⟨["Date", "Downloads", "Seeders", "Leechers", "Name", "Category"], some 4⟩, .Name⟩,
        .Normal) :=
  ⟨(sort_popup_enter (fun t _ => t) (fun t _ => t)
      ⟨⟨["Date", "Downloads", "Seeders", "Leechers", "Name", "Category"], none⟩, .Category⟩
      .Sorting).1 rfl,
    (sort_popup_enter (fun t _ => t) (fun t _ => t)
      ⟨⟨["Date", "Downloads", "Seeders", "Leechers", "Name", "Category"], some 4⟩, .Date⟩
      .Sorting).2 4 .Name rfl rfl⟩


end Nyaa
